import Mathlib

/-!
# Verification of the lhci-ai-assistant metrics core

Shallow embedding of the metric comparison, baseline synthesis and report
selection logic of `src/metrics/comparator.ts`, `src/metrics/baseline.ts` and
`src/metrics/loader.ts`.  JavaScript numbers are modelled as rationals (all
arithmetic performed by this code on the values of interest is exact field
arithmetic plus floor/ceil, which ℚ models faithfully for every input free of
floating-point rounding at the claim sites).  JavaScript's stable
`Array.prototype.sort` is modelled by `List.insertionSort`, which is a stable
sort, hence produces the same list for any total preorder comparator.
-/

namespace LHCI

/-- Severity levels of a metric comparison (`types.ts`). -/
inductive Severity
  | low
  | medium
  | high
  | critical
deriving DecidableEq

/-- The category-score keys iterated by `compareScores` (`comparator.ts`). -/
inductive ScoreKey
  | performance
  | accessibility
  | bestPractices
  | seo
deriving DecidableEq

/-- The Core Web Vital keys iterated by `compareCoreWebVitals` (`comparator.ts`). -/
inductive VitalKey
  | fcp
  | lcp
  | tbt
  | cls
  | speedIndex
  | tti
deriving DecidableEq

/-- `Metrics.scores` from `types.ts`: each key optional. -/
structure Scores where
  performance : Option ℚ := none
  accessibility : Option ℚ := none
  bestPractices : Option ℚ := none
  seo : Option ℚ := none
deriving DecidableEq

/-- `Metrics.coreWebVitals` from `types.ts`: each key optional. -/
structure CoreWebVitals where
  fcp : Option ℚ := none
  lcp : Option ℚ := none
  tbt : Option ℚ := none
  cls : Option ℚ := none
  speedIndex : Option ℚ := none
  tti : Option ℚ := none
deriving DecidableEq

/-- `Opportunity` from `types.ts`. -/
structure Opportunity where
  id : String
  title : String
  description : Option String := none
  savingsMs : Option ℚ := none
  savingsBytes : Option ℚ := none
  score : Option ℚ := none
deriving DecidableEq

/-- `Metrics` from `types.ts`. -/
structure Metrics where
  scores : Scores
  coreWebVitals : CoreWebVitals
  opportunities : List Opportunity := []
deriving DecidableEq

/-- Field lookup on `Scores` by key, modelling `scores[key]`. -/
def Scores.get (s : Scores) : ScoreKey → Option ℚ
  | .performance => s.performance
  | .accessibility => s.accessibility
  | .bestPractices => s.bestPractices
  | .seo => s.seo

/-- Field lookup on `CoreWebVitals` by key, modelling `coreWebVitals[key]`. -/
def CoreWebVitals.get (v : CoreWebVitals) : VitalKey → Option ℚ
  | .fcp => v.fcp
  | .lcp => v.lcp
  | .tbt => v.tbt
  | .cls => v.cls
  | .speedIndex => v.speedIndex
  | .tti => v.tti

/-- `MetricComparison` from `types.ts`. -/
structure MetricComparison where
  metric : String
  base : ℚ
  current : ℚ
  diff : ℚ
  diffPercent : ℚ
  isRegression : Bool
  isImprovement : Bool
  severity : Severity
deriving DecidableEq

/-- The `overallScore` record of `ComparisonResult` (`types.ts`). -/
structure OverallScore where
  base : ℚ
  current : ℚ
  diff : ℚ
deriving DecidableEq

/-- `ComparisonResult` from `types.ts`. -/
structure ComparisonResult where
  regressions : List MetricComparison
  improvements : List MetricComparison
  unchanged : List MetricComparison
  overallScore : OverallScore
deriving DecidableEq

/-- `SCORE_CHANGE_THRESHOLD` from `comparator.ts` (2 percentage points). -/
def SCORE_CHANGE_THRESHOLD : ℚ := 2 / 100

/-- The `metricThresholds` record from `comparator.ts`:
`(absolute, relative)` per displayed metric name, `none` for unknown names. -/
def metricThresholds (metric : String) : Option (ℚ × ℚ) :=
  if metric = "FCP" then some (100, 1 / 10)
  else if metric = "LCP" then some (150, 1 / 10)
  else if metric = "TBT" then some (50, 15 / 100)
  else if metric = "CLS" then some (2 / 100, 15 / 100)
  else if metric = "Speed Index" then some (200, 1 / 10)
  else if metric = "TTI" then some (200, 1 / 10)
  else none

/-- `getMetricThreshold` from `comparator.ts`. -/
def getMetricThreshold (metric : String) (base : ℚ) : ℚ :=
  match metricThresholds metric with
  | none => 100
  | some t => max t.1 (|base| * t.2)

/-- `calculateDiffPercent` from `comparator.ts`. -/
def calculateDiffPercent (base diff : ℚ) : ℚ :=
  if base = 0 then
    if diff = 0 then 0
    else if diff > 0 then 100 else -100
  else diff / base * 100

/-- `getScoreSeverity` from `comparator.ts`. -/
def getScoreSeverity (diff : ℚ) : Severity :=
  if |diff| ≥ 2 / 10 then .critical
  else if |diff| ≥ 1 / 10 then .high
  else if |diff| ≥ 5 / 100 then .medium
  else .low

/-- `getMetricSeverity` from `comparator.ts`. -/
def getMetricSeverity (metric : String) (diff : ℚ) : Severity :=
  if metric = "CLS" then
    if |diff| ≥ 1 / 10 then .critical
    else if |diff| ≥ 5 / 100 then .high
    else if |diff| ≥ 2 / 100 then .medium
    else .low
  else
    if |diff| ≥ 1000 then .critical
    else if |diff| ≥ 500 then .high
    else if |diff| ≥ 200 then .medium
    else .low

/-- `formatScoreKey` from `comparator.ts` (the fallback branch is dead:
every key comes from the fixed `scoreKeys` array). -/
def formatScoreKey : ScoreKey → String
  | .performance => "Performance Score"
  | .accessibility => "Accessibility Score"
  | .bestPractices => "Best Practices Score"
  | .seo => "SEO Score"

/-- `formatMetricKey` from `comparator.ts`. -/
def formatMetricKey : VitalKey → String
  | .fcp => "FCP"
  | .lcp => "LCP"
  | .tbt => "TBT"
  | .cls => "CLS"
  | .speedIndex => "Speed Index"
  | .tti => "TTI"

/-- `createScoreComparison` from `comparator.ts` (higher is better). -/
def createScoreComparison (metric : String) (current base : ℚ) : MetricComparison :=
  let diff := current - base
  { metric := metric
    base := base
    current := current
    diff := diff
    diffPercent := calculateDiffPercent base diff
    isRegression := decide (diff ≤ -SCORE_CHANGE_THRESHOLD)
    isImprovement := decide (diff ≥ SCORE_CHANGE_THRESHOLD)
    severity := getScoreSeverity diff }

/-- `createMetricComparison` from `comparator.ts` (lower is better). -/
def createMetricComparison (metric : String) (current base : ℚ) : MetricComparison :=
  let diff := current - base
  let threshold := getMetricThreshold metric base
  { metric := metric
    base := base
    current := current
    diff := diff
    diffPercent := calculateDiffPercent base diff
    isRegression := decide (diff ≥ threshold)
    isImprovement := decide (diff ≤ -threshold)
    severity := getMetricSeverity metric diff }

/-- The `scoreKeys` array of `compareScores` (`comparator.ts`). -/
def scoreKeys : List ScoreKey := [.performance, .accessibility, .bestPractices, .seo]

/-- The `metricKeys` array of `compareCoreWebVitals` (`comparator.ts`). -/
def metricKeys : List VitalKey := [.fcp, .lcp, .tbt, .cls, .speedIndex, .tti]

/-- Loop body of `compareScores` (`comparator.ts`): a comparison is pushed
exactly when both sides define the key. -/
def scoreCompareAt (current baseline : Scores) (key : ScoreKey) : Option MetricComparison :=
  match baseline.get key, current.get key with
  | some baseValue, some currentValue =>
      some (createScoreComparison (formatScoreKey key) currentValue baseValue)
  | _, _ => none

/-- `compareScores` from `comparator.ts`. -/
def compareScores (current baseline : Scores) : List MetricComparison :=
  scoreKeys.filterMap (scoreCompareAt current baseline)

/-- Loop body of `compareCoreWebVitals` (`comparator.ts`). -/
def vitalCompareAt (current baseline : CoreWebVitals) (key : VitalKey) :
    Option MetricComparison :=
  match baseline.get key, current.get key with
  | some baseValue, some currentValue =>
      some (createMetricComparison (formatMetricKey key) currentValue baseValue)
  | _, _ => none

/-- `compareCoreWebVitals` from `comparator.ts`. -/
def compareCoreWebVitals (current baseline : CoreWebVitals) : List MetricComparison :=
  metricKeys.filterMap (vitalCompareAt current baseline)

/-- `severityOrder` from `sortBySeverity` (`comparator.ts`). -/
def severityOrder : Severity → ℕ
  | .critical => 0
  | .high => 1
  | .medium => 2
  | .low => 3

/-- The "stays before" preorder induced by the JavaScript comparator
`severityOrder[a] - severityOrder[b] || |b.diff| - |a.diff|` of
`sortBySeverity`: `a` may stay before `b` iff the comparator is ≤ 0. -/
def severityLe (a b : MetricComparison) : Prop :=
  severityOrder a.severity < severityOrder b.severity ∨
    (severityOrder a.severity = severityOrder b.severity ∧ |b.diff| ≤ |a.diff|)

instance : DecidableRel severityLe := fun a b => by
  unfold severityLe; infer_instance

/-- `sortBySeverity` from `comparator.ts`; JavaScript's stable sort is
modelled by the stable `insertionSort`. -/
def sortBySeverity (comparisons : List MetricComparison) : List MetricComparison :=
  comparisons.insertionSort severityLe

/-- The concatenated `comparisons` array built by `compareMetrics`. -/
def allComparisons (current baseline : Metrics) : List MetricComparison :=
  compareScores current.scores baseline.scores ++
    compareCoreWebVitals current.coreWebVitals baseline.coreWebVitals

/-- `compareMetrics` from `comparator.ts`. -/
def compareMetrics (current baseline : Metrics) : ComparisonResult :=
  let comparisons := allComparisons current baseline
  let regressions := comparisons.filter (·.isRegression)
  let improvements := comparisons.filter (·.isImprovement)
  let unchanged := comparisons.filter fun c => !c.isRegression && !c.isImprovement
  { regressions := sortBySeverity regressions
    improvements := sortBySeverity improvements
    unchanged := unchanged
    overallScore :=
      { base := baseline.scores.performance.getD 0
        current := current.scores.performance.getD 0
        diff := current.scores.performance.getD 0 - baseline.scores.performance.getD 0 } }

/-! ## Baseline synthesis (`baseline.ts`) -/

/-- The two fatal error cases of `buildPercentileBaselineMetrics` (`baseline.ts`
throws `Error` with distinct messages; modelled as an error enum). -/
inductive BaselineError
  | emptySeries
  | invalidPercentile
deriving DecidableEq

/-- `SCORE_KEYS` from `baseline.ts`. -/
def SCORE_KEYS : List ScoreKey := [.performance, .accessibility, .bestPractices, .seo]

/-- `VITAL_KEYS` from `baseline.ts`. -/
def VITAL_KEYS : List VitalKey := [.fcp, .lcp, .tbt, .cls, .speedIndex, .tti]

/-- `getPercentile` from `baseline.ts`.  JavaScript's numeric sort
`(a, b) => a - b` is modelled by `insertionSort (· ≤ ·)`; out-of-range indexing
cannot occur (the indices are proved in range below), so `getD _ _ 0` is
exact. -/
def getPercentile (values : List ℚ) (percentile : ℚ) : Option ℚ :=
  if values.length = 0 then none
  else
    let sorted := values.insertionSort (· ≤ ·)
    if sorted.length = 1 then sorted.head?
    else
      let bounded := max 0 (min 100 percentile)
      let rank := bounded / 100 * ((sorted.length : ℚ) - 1)
      let lowerIndex : ℤ := ⌊rank⌋
      let upperIndex : ℤ := ⌈rank⌉
      if lowerIndex = upperIndex then some (sorted.getD lowerIndex.toNat 0)
      else
        let lowerValue := sorted.getD lowerIndex.toNat 0
        let upperValue := sorted.getD upperIndex.toNat 0
        let weight := rank - (lowerIndex : ℚ)
        some (lowerValue + (upperValue - lowerValue) * weight)

/-- The per-key series of present score values collected by
`buildPercentileBaselineMetrics` (`.map(...).filter(... !== undefined)`). -/
def scoreSeriesValues (metricsSeries : List Metrics) (key : ScoreKey) : List ℚ :=
  metricsSeries.filterMap fun entry => entry.scores.get key

/-- The per-key series of present Core Web Vital values collected by
`buildPercentileBaselineMetrics`. -/
def vitalSeriesValues (metricsSeries : List Metrics) (key : VitalKey) : List ℚ :=
  metricsSeries.filterMap fun entry => entry.coreWebVitals.get key

/-- `buildPercentileBaselineMetrics` from `baseline.ts`.  The two `throw`
statements become `Except.error`; the per-key loops assigning
`scores[key] = value` when defined become direct optional-field assembly. -/
def buildPercentileBaselineMetrics (metricsSeries : List Metrics) (percentile : ℚ) :
    Except BaselineError Metrics :=
  if metricsSeries.length = 0 then .error .emptySeries
  else if percentile ≤ 0 ∨ percentile > 100 then .error .invalidPercentile
  else
    let scoreAt := fun key => getPercentile (scoreSeriesValues metricsSeries key) percentile
    let inversePercentile := 100 - percentile
    let vitalAt := fun key =>
      getPercentile (vitalSeriesValues metricsSeries key) inversePercentile
    .ok
      { scores :=
          { performance := scoreAt .performance
            accessibility := scoreAt .accessibility
            bestPractices := scoreAt .bestPractices
            seo := scoreAt .seo }
        coreWebVitals :=
          { fcp := vitalAt .fcp
            lcp := vitalAt .lcp
            tbt := vitalAt .tbt
            cls := vitalAt .cls
            speedIndex := vitalAt .speedIndex
            tti := vitalAt .tti }
        opportunities := [] }

/-- `buildMedianBaselineMetrics` from `baseline.ts`. -/
def buildMedianBaselineMetrics (metricsSeries : List Metrics) :
    Except BaselineError Metrics :=
  buildPercentileBaselineMetrics metricsSeries 50

/-! ## Report loading and baseline selection (`loader.ts`)

The file-system part of `loadLighthouseReports` is environment interaction; the
pure core modelled here is the sort applied to the successfully parsed
`{file, report}` entries (`sortReportsByRecency`) and the current/baseline
selection (`selectCurrentAndBaselineReports`, `getBaselineCandidates`).
`Date.parse` is a host API: a report's `fetchTime` is modelled pre-parsed as
`some t` (epoch value) when the string parses and `none` when it is missing or
unparsable, exactly the two cases `parseTime` distinguishes. -/

/-- The loader-relevant fields of `LHReport` (`types.ts`): `fetchTime` with its
`Date.parse` outcome pre-applied, and the two URL fields. -/
structure LHReport where
  fetchTime : Option ℤ := none
  requestedUrl : Option String := none
  finalUrl : String := ""
deriving DecidableEq

/-- A `{file, report}` entry as collected by `loadLighthouseReports`. -/
structure ReportFile where
  file : String
  report : LHReport
deriving DecidableEq

/-- `parseTime` from `loader.ts`: missing or unparsable timestamps become 0. -/
def parseTime : Option ℤ → ℤ
  | none => 0
  | some t => t

/-- The "stays before" preorder induced by the JavaScript comparator of
`sortReportsByRecency`: `bTime - aTime`, ties broken by
`b.file.localeCompare(a.file)` (descending filename; `localeCompare` on the
ASCII `lhr-*.json` filenames is plain lexicographic comparison). -/
def reportRecencyLe (a b : ReportFile) : Prop :=
  parseTime b.report.fetchTime < parseTime a.report.fetchTime ∨
    (parseTime a.report.fetchTime = parseTime b.report.fetchTime ∧ b.file ≤ a.file)

instance : DecidableRel reportRecencyLe := fun a b => by
  unfold reportRecencyLe; infer_instance

/-- The entry-level sort of `sortReportsByRecency` (`loader.ts`); JavaScript's
stable sort is modelled by the stable `insertionSort`. -/
def sortEntriesByRecency (reports : List ReportFile) : List ReportFile :=
  reports.insertionSort reportRecencyLe

/-- `sortReportsByRecency` from `loader.ts`: sort the entries, keep reports. -/
def sortReportsByRecency (reports : List ReportFile) : List LHReport :=
  (sortEntriesByRecency reports).map (·.report)

/-- `raw.replace(/\/+$/, '')` from `normalizeReportUrl`: drop all trailing
slashes. -/
def stripTrailingSlashes (s : String) : String :=
  String.mk ((s.toList.reverse.dropWhile fun c => c = '/').reverse)

/-- The `origin` and `pathname` of a parsed URL. -/
structure UrlParts where
  origin : String
  pathname : String
deriving DecidableEq

/-- Split a character list at the first occurrence of `://`, returning the
scheme part and the remainder. -/
def splitScheme : List Char → Option (List Char × List Char)
  | [] => none
  | ':' :: '/' :: '/' :: rest => some ([], rest)
  | c :: rest => (splitScheme rest).map fun p => (c :: p.1, p.2)

/-- Model of the host `new URL` constructor as used by `normalizeReportUrl`:
`scheme://host[/path][?query][#fragment]` parses into origin
(`scheme://host`) and pathname (`/`-prefixed, `/` when the path is empty);
anything without a `scheme://host` part fails (the `catch` branch). -/
def parseUrl (raw : String) : Option UrlParts :=
  match splitScheme raw.toList with
  | none => none
  | some (scheme, rest) =>
    if scheme = [] ∨ rest = [] then none
    else
      let beforeFragment := rest.takeWhile fun c => ¬c = '#'
      let beforeQuery := beforeFragment.takeWhile fun c => ¬c = '?'
      let host := beforeQuery.takeWhile fun c => ¬c = '/'
      let path := beforeQuery.dropWhile fun c => ¬c = '/'
      if host = [] then none
      else
        some
          { origin := String.mk scheme ++ "://" ++ String.mk host
            pathname := if path = [] then "/" else String.mk path }

/-- JavaScript `a || b` on strings: empty string is falsy. -/
def jsOrString (a b : String) : String :=
  if a = "" then b else a

/-- `normalizeReportUrl` from `loader.ts`. -/
def normalizeReportUrl (report : LHReport) : String :=
  let raw := jsOrString (report.requestedUrl.getD "") report.finalUrl
  match parseUrl raw with
  | some parts =>
      let stripped := stripTrailingSlashes parts.pathname
      let path := if stripped = "" then "/" else stripped
      parts.origin ++ path
  | none => stripTrailingSlashes raw

/-- The regular expression `^p(?:[1-9]\d?|100)$` tested by
`getBaselineCandidates` (`loader.ts`) to recognize percentile strategies. -/
def isPercentileStrategy (strategy : String) : Bool :=
  match strategy.toList with
  | ['p', c] => decide ('1' ≤ c ∧ c ≤ '9')
  | ['p', c, d] => decide (('1' ≤ c ∧ c ≤ '9') ∧ ('0' ≤ d ∧ d ≤ '9'))
  | ['p', '1', '0', '0'] => true
  | _ => false

/-- `getBaselineCandidates` from `loader.ts`.  The strategy union type is
modelled as `String`; the `switch` falls through `same-url` into `default`
where the percentile regex is tested. -/
def getBaselineCandidates (current : LHReport) (historical : List LHReport)
    (strategy : String) : List LHReport :=
  if historical.length = 0 then []
  else if strategy = "latest" then historical.take 1
  else if strategy = "median" then
    let sameUrl := historical.filter fun r =>
      normalizeReportUrl r = normalizeReportUrl current
    if sameUrl.length > 0 then sameUrl else historical
  else if isPercentileStrategy strategy then
    let sameUrl := historical.filter fun r =>
      normalizeReportUrl r = normalizeReportUrl current
    if sameUrl.length > 0 then sameUrl else historical
  else
    let sameUrl := historical.filter fun r =>
      normalizeReportUrl r = normalizeReportUrl current
    if sameUrl.length > 0 then sameUrl else historical.take 1

/-- `ReportPair` from `loader.ts`. -/
structure ReportPair where
  current : LHReport
  baseline : Option LHReport := none
  baselineCandidates : List LHReport
deriving DecidableEq

/-- `selectCurrentAndBaselineReports` from `loader.ts`; the `throw` on an
empty input becomes `Except.error`. -/
def selectCurrentAndBaselineReports (reports : List LHReport) (strategy : String) :
    Except String ReportPair :=
  match reports with
  | [] => .error "At least one Lighthouse report is required"
  | current :: historical =>
    if reports.length = 1 then
      .ok { current := current, baselineCandidates := [] }
    else
      let baselineCandidates := getBaselineCandidates current historical strategy
      .ok
        { current := current
          baseline := baselineCandidates.head?
          baselineCandidates := baselineCandidates }

/-! ## Spec-side definitions

These are transcribed from the specification's wording (not from the code),
for refinement claims comparing code behaviour against the spec's description. -/

/-- The spec's per-metric threshold table: "threshold = max(absolute floor,
relative fraction × |base|) with FCP: max(100, 0.1·base), LCP: max(150,
0.1·base), TBT: max(50, 0.15·base), CLS: max(0.02, 0.15·base), Speed Index:
max(200, 0.1·base), TTI: max(200, 0.1·base)". -/
def vitalThresholdSpec : VitalKey → ℚ → ℚ
  | .fcp, base => max 100 (1 / 10 * |base|)
  | .lcp, base => max 150 (1 / 10 * |base|)
  | .tbt, base => max 50 (15 / 100 * |base|)
  | .cls, base => max (2 / 100) (15 / 100 * |base|)
  | .speedIndex, base => max 200 (1 / 10 * |base|)
  | .tti, base => max 200 (1 / 10 * |base|)

/-- The spec's percentile description: "over the present values sorted
ascending, rank = (p/100)·(n−1) with p clamped to [0,100]; if rank is integral,
return that order statistic; otherwise interpolate linearly between the floor
and ceiling order statistics weighted by the fractional part; a series of
length 1 returns its single value regardless of percentile". -/
def specLinearPercentile (values : List ℚ) (p : ℚ) : Option ℚ :=
  if values.length = 0 then none
  else
    let sorted := values.insertionSort (· ≤ ·)
    if sorted.length = 1 then sorted.head?
    else
      let clamped := max 0 (min 100 p)
      let rank := clamped / 100 * ((sorted.length : ℚ) - 1)
      if (⌊rank⌋ : ℚ) = rank then some (sorted.getD ⌊rank⌋.toNat 0)
      else
        some
          (sorted.getD ⌊rank⌋.toNat 0 +
            (sorted.getD ⌈rank⌉.toNat 0 - sorted.getD ⌊rank⌋.toNat 0) * Int.fract rank)

/-! ## Helper lemmas for the comparator -/

/-- Every metric threshold is strictly positive: the known table entries have a
positive absolute floor, and unknown metric names get the fallback 100. -/
theorem getMetricThreshold_pos (metric : String) (base : ℚ) :
    0 < getMetricThreshold metric base := by
  unfold getMetricThreshold metricThresholds
  split_ifs <;>
    first
      | exact lt_max_of_lt_left (by norm_num)
      | norm_num

/-- A comparison appears in one of the three output lists of `compareMetrics`
iff it appears in the underlying `comparisons` array. -/
theorem mem_compareMetrics_iff (current baseline : Metrics) (comp : MetricComparison) :
    (comp ∈ (compareMetrics current baseline).regressions ∨
        comp ∈ (compareMetrics current baseline).improvements ∨
        comp ∈ (compareMetrics current baseline).unchanged) ↔
      comp ∈ allComparisons current baseline := by
  simp only [compareMetrics, sortBySeverity, List.mem_insertionSort, List.mem_filter]
  constructor
  · rintro (⟨h, -⟩ | ⟨h, -⟩ | ⟨h, -⟩) <;> exact h
  · intro h
    by_cases hr : comp.isRegression
    · exact Or.inl ⟨h, by simp [hr]⟩
    · by_cases hi : comp.isImprovement
      · exact Or.inr (Or.inl ⟨h, by simp [hi]⟩)
      · exact Or.inr (Or.inr ⟨h, by simp [hr, hi]⟩)

/-- Shape of the elements of `compareScores`: exactly the score keys present on
both sides, compared by `createScoreComparison`. -/
theorem mem_compareScores_iff (cs bs : Scores) (comp : MetricComparison) :
    comp ∈ compareScores cs bs ↔
      ∃ k : ScoreKey, ∃ c b : ℚ, cs.get k = some c ∧ bs.get k = some b ∧
        comp = createScoreComparison (formatScoreKey k) c b := by
  unfold compareScores scoreCompareAt
  rw [List.mem_filterMap]
  constructor
  · rintro ⟨k, -, hk⟩
    cases hb : bs.get k with
    | none => rw [hb] at hk; simp at hk
    | some b =>
      cases hc : cs.get k with
      | none => rw [hb, hc] at hk; simp at hk
      | some c =>
        rw [hb, hc] at hk
        simp only [Option.some.injEq] at hk
        exact ⟨k, c, b, hc, hb, hk.symm⟩
  · rintro ⟨k, c, b, hc, hb, rfl⟩
    refine ⟨k, ?_, ?_⟩
    · cases k <;> simp [scoreKeys]
    · rw [hb, hc]

/-- Shape of the elements of `compareCoreWebVitals`: exactly the vital keys
present on both sides, compared by `createMetricComparison`. -/
theorem mem_compareCoreWebVitals_iff (cv bv : CoreWebVitals) (comp : MetricComparison) :
    comp ∈ compareCoreWebVitals cv bv ↔
      ∃ k : VitalKey, ∃ c b : ℚ, cv.get k = some c ∧ bv.get k = some b ∧
        comp = createMetricComparison (formatMetricKey k) c b := by
  unfold compareCoreWebVitals vitalCompareAt
  rw [List.mem_filterMap]
  constructor
  · rintro ⟨k, -, hk⟩
    cases hb : bv.get k with
    | none => rw [hb] at hk; simp at hk
    | some b =>
      cases hc : cv.get k with
      | none => rw [hb, hc] at hk; simp at hk
      | some c =>
        rw [hb, hc] at hk
        simp only [Option.some.injEq] at hk
        exact ⟨k, c, b, hc, hb, hk.symm⟩
  · rintro ⟨k, c, b, hc, hb, rfl⟩
    refine ⟨k, ?_, ?_⟩
    · cases k <;> simp [metricKeys]
    · rw [hb, hc]

/-- No element of the `comparisons` array has both flags set. -/
theorem allComparisons_not_both (current baseline : Metrics) (comp : MetricComparison)
    (h : comp ∈ allComparisons current baseline) :
    ¬(comp.isRegression = true ∧ comp.isImprovement = true) := by
  unfold allComparisons at h
  rw [List.mem_append] at h
  rcases h with h | h
  · rw [mem_compareScores_iff] at h
    obtain ⟨k, c, b, -, -, rfl⟩ := h
    simp only [createScoreComparison, SCORE_CHANGE_THRESHOLD, decide_eq_true_eq]
    rintro ⟨h1, h2⟩
    linarith
  · rw [mem_compareCoreWebVitals_iff] at h
    obtain ⟨k, c, b, -, -, rfl⟩ := h
    simp only [createMetricComparison, decide_eq_true_eq]
    rintro ⟨h1, h2⟩
    have hpos := getMetricThreshold_pos (formatMetricKey k) b
    linarith

/-- Code threshold lookup agrees with the spec's table on every displayed
vital name (the code multiplies `|base| * relative`, the spec writes
`relative · |base|`). -/
theorem getMetricThreshold_formatMetricKey (k : VitalKey) (b : ℚ) :
    getMetricThreshold (formatMetricKey k) b = vitalThresholdSpec k b := by
  cases k <;>
    simp [getMetricThreshold, metricThresholds, formatMetricKey, vitalThresholdSpec,
      mul_comm]

/-! ## Claim theorems -/

/-- C3: For every MetricComparison produced by compareMetrics (from any pair of
Metrics snapshots), isRegression and isImprovement are never both true; both
may be false (the unchanged case, exhibited by a concrete self-comparison). -/
theorem regression_improvement_mutually_exclusive :
    (∀ (current baseline : Metrics) (comp : MetricComparison),
        (comp ∈ (compareMetrics current baseline).regressions ∨
            comp ∈ (compareMetrics current baseline).improvements ∨
            comp ∈ (compareMetrics current baseline).unchanged) →
        ¬(comp.isRegression = true ∧ comp.isImprovement = true)) ∧
      (∃ (current baseline : Metrics) (comp : MetricComparison),
        comp ∈ (compareMetrics current baseline).unchanged ∧
          comp.isRegression = false ∧ comp.isImprovement = false) := by
  constructor
  · intro current baseline comp h
    exact allComparisons_not_both current baseline comp
      ((mem_compareMetrics_iff current baseline comp).mp h)
  · refine ⟨{ scores := { performance := some 1 }, coreWebVitals := {} },
      { scores := { performance := some 1 }, coreWebVitals := {} },
      createScoreComparison "Performance Score" 1 1, ?_, ?_, ?_⟩
    · norm_num [compareMetrics, allComparisons, compareScores, compareCoreWebVitals,
        scoreCompareAt, vitalCompareAt, scoreKeys, metricKeys, Scores.get, CoreWebVitals.get, createScoreComparison,
        SCORE_CHANGE_THRESHOLD, formatScoreKey, List.filter]
    · simp [createScoreComparison, SCORE_CHANGE_THRESHOLD]
    · simp [createScoreComparison, SCORE_CHANGE_THRESHOLD]

/-- Witness for C3's membership hypothesis at a concrete comparison. -/
theorem regression_improvement_mutually_exclusive_witness :
    (createScoreComparison "Performance Score" 1 1 ∈
        (compareMetrics
          { scores := { performance := some 1 }, coreWebVitals := {} }
          { scores := { performance := some 1 }, coreWebVitals := {} }).regressions ∨
      createScoreComparison "Performance Score" 1 1 ∈
        (compareMetrics
          { scores := { performance := some 1 }, coreWebVitals := {} }
          { scores := { performance := some 1 }, coreWebVitals := {} }).improvements ∨
      createScoreComparison "Performance Score" 1 1 ∈
        (compareMetrics
          { scores := { performance := some 1 }, coreWebVitals := {} }
          { scores := { performance := some 1 }, coreWebVitals := {} }).unchanged) ∧
      ¬((createScoreComparison "Performance Score" 1 1).isRegression = true ∧
        (createScoreComparison "Performance Score" 1 1).isImprovement = true) :=
  have hmem :
      createScoreComparison "Performance Score" 1 1 ∈
        (compareMetrics
          { scores := { performance := some 1 }, coreWebVitals := {} }
          { scores := { performance := some 1 }, coreWebVitals := {} }).unchanged := by
    norm_num [compareMetrics, allComparisons, compareScores, compareCoreWebVitals,
      scoreCompareAt, vitalCompareAt, scoreKeys, metricKeys, Scores.get,
      CoreWebVitals.get, createScoreComparison, SCORE_CHANGE_THRESHOLD,
      formatScoreKey, List.filter]
  ⟨Or.inr (Or.inr hmem),
    regression_improvement_mutually_exclusive.1
      { scores := { performance := some 1 }, coreWebVitals := {} }
      { scores := { performance := some 1 }, coreWebVitals := {} }
      (createScoreComparison "Performance Score" 1 1)
      (Or.inr (Or.inr hmem))⟩

/-- C6: comparing a snapshot against itself yields no regressions and no
improvements; every comparison lands in `unchanged`. -/
theorem compareMetrics_self_unchanged (m : Metrics) :
    (compareMetrics m m).regressions = [] ∧
      (compareMetrics m m).improvements = [] ∧
      (compareMetrics m m).unchanged = allComparisons m m := by
  have key : ∀ comp ∈ allComparisons m m,
      comp.isRegression = false ∧ comp.isImprovement = false := by
    intro comp h
    unfold allComparisons at h
    rw [List.mem_append] at h
    rcases h with h | h
    · rw [mem_compareScores_iff] at h
      obtain ⟨k, c, b, hc, hb, rfl⟩ := h
      obtain rfl : c = b := by rw [hc] at hb; exact Option.some.inj hb
      constructor <;> norm_num [createScoreComparison, SCORE_CHANGE_THRESHOLD]
    · rw [mem_compareCoreWebVitals_iff] at h
      obtain ⟨k, c, b, hc, hb, rfl⟩ := h
      obtain rfl : c = b := by rw [hc] at hb; exact Option.some.inj hb
      have hpos := getMetricThreshold_pos (formatMetricKey k) c
      constructor <;> simp [createMetricComparison] <;> linarith
  refine ⟨?_, ?_, ?_⟩
  · show sortBySeverity ((allComparisons m m).filter (·.isRegression)) = []
    have : (allComparisons m m).filter (·.isRegression) = [] := by
      rw [List.filter_eq_nil_iff]
      intro a ha
      simp [(key a ha).1]
    rw [this]
    rfl
  · show sortBySeverity ((allComparisons m m).filter (·.isImprovement)) = []
    have : (allComparisons m m).filter (·.isImprovement) = [] := by
      rw [List.filter_eq_nil_iff]
      intro a ha
      simp [(key a ha).2]
    rw [this]
    rfl
  · show (allComparisons m m).filter
        (fun c => !c.isRegression && !c.isImprovement) = allComparisons m m
    rw [List.filter_eq_self]
    intro a ha
    simp [(key a ha).1, (key a ha).2]

/-- C1: for every Core Web Vital key present in both snapshots, the emitted
comparison has diff = current − base, is a regression iff diff ≥ threshold and
an improvement iff diff ≤ −threshold, where the threshold is the spec's
per-metric max(absolute floor, relative fraction × |base|) table. -/
theorem vital_comparison_matches_spec_thresholds
    (current baseline : Metrics) (k : VitalKey) (c b : ℚ)
    (hc : current.coreWebVitals.get k = some c)
    (hb : baseline.coreWebVitals.get k = some b) :
    ∃ comp : MetricComparison,
      (comp ∈ (compareMetrics current baseline).regressions ∨
          comp ∈ (compareMetrics current baseline).improvements ∨
          comp ∈ (compareMetrics current baseline).unchanged) ∧
        comp.metric = formatMetricKey k ∧
        comp.diff = c - b ∧
        (comp.isRegression = true ↔ c - b ≥ vitalThresholdSpec k b) ∧
        (comp.isImprovement = true ↔ c - b ≤ -vitalThresholdSpec k b) := by
  refine ⟨createMetricComparison (formatMetricKey k) c b, ?_, rfl, rfl, ?_, ?_⟩
  · refine (mem_compareMetrics_iff current baseline _).mpr ?_
    unfold allComparisons
    rw [List.mem_append]
    exact Or.inr ((mem_compareCoreWebVitals_iff _ _ _).mpr ⟨k, c, b, hc, hb, rfl⟩)
  · simp only [createMetricComparison, decide_eq_true_eq,
      getMetricThreshold_formatMetricKey, ge_iff_le]
  · simp only [createMetricComparison, decide_eq_true_eq,
      getMetricThreshold_formatMetricKey]

/-- Witness for C1 at lcp 2000 against baseline lcp 1000. -/
theorem vital_comparison_matches_spec_thresholds_witness :
    ({ scores := {}, coreWebVitals := { lcp := some 2000 } } : Metrics).coreWebVitals.get
        .lcp = some 2000 ∧
      ({ scores := {}, coreWebVitals := { lcp := some 1000 } } : Metrics).coreWebVitals.get
        .lcp = some 1000 ∧
      ∃ comp : MetricComparison,
        (comp ∈ (compareMetrics
              { scores := {}, coreWebVitals := { lcp := some 2000 } }
              { scores := {}, coreWebVitals := { lcp := some 1000 } }).regressions ∨
            comp ∈ (compareMetrics
              { scores := {}, coreWebVitals := { lcp := some 2000 } }
              { scores := {}, coreWebVitals := { lcp := some 1000 } }).improvements ∨
            comp ∈ (compareMetrics
              { scores := {}, coreWebVitals := { lcp := some 2000 } }
              { scores := {}, coreWebVitals := { lcp := some 1000 } }).unchanged) ∧
          comp.metric = formatMetricKey .lcp ∧
          comp.diff = 2000 - 1000 ∧
          (comp.isRegression = true ↔ 2000 - 1000 ≥ vitalThresholdSpec .lcp 1000) ∧
          (comp.isImprovement = true ↔ 2000 - 1000 ≤ -vitalThresholdSpec .lcp 1000) :=
  ⟨rfl, rfl,
    vital_comparison_matches_spec_thresholds
      { scores := {}, coreWebVitals := { lcp := some 2000 } }
      { scores := {}, coreWebVitals := { lcp := some 1000 } }
      .lcp 2000 1000 rfl rfl⟩

/-- Characterization of the score-severity buckets as disjoint `|diff|`
ranges. -/
theorem getScoreSeverity_iff (d : ℚ) :
    (getScoreSeverity d = .critical ↔ 2 / 10 ≤ |d|) ∧
      (getScoreSeverity d = .high ↔ 1 / 10 ≤ |d| ∧ |d| < 2 / 10) ∧
      (getScoreSeverity d = .medium ↔ 5 / 100 ≤ |d| ∧ |d| < 1 / 10) ∧
      (getScoreSeverity d = .low ↔ |d| < 5 / 100) := by
  unfold getScoreSeverity
  split_ifs with h1 h2 h3 <;>
    refine ⟨?_, ?_, ?_, ?_⟩ <;> simp <;> push_neg at h1 <;>
      first
        | linarith
        | (constructor <;> linarith)
        | (intro h; linarith)

/-- C2: for every score key present on both sides, the emitted comparison is a
regression iff diff ≤ −0.02 and an improvement iff diff ≥ 0.02, with severity
bucketed by |diff| (≥0.20 critical, ≥0.10 high, ≥0.05 medium, else low);
concretely, performance 0.8 against baseline 0.9 emits a regression for
"Performance Score" with diff = −0.1 and severity high ∈ {high, medium}. -/
theorem score_comparison_classification :
    (∀ (current baseline : Metrics) (k : ScoreKey) (c b : ℚ),
        current.scores.get k = some c → baseline.scores.get k = some b →
        ∃ comp : MetricComparison,
          (comp ∈ (compareMetrics current baseline).regressions ∨
              comp ∈ (compareMetrics current baseline).improvements ∨
              comp ∈ (compareMetrics current baseline).unchanged) ∧
            comp.metric = formatScoreKey k ∧
            comp.diff = c - b ∧
            (comp.isRegression = true ↔ c - b ≤ -(2 / 100)) ∧
            (comp.isImprovement = true ↔ c - b ≥ 2 / 100) ∧
            (comp.severity = .critical ↔ 2 / 10 ≤ |c - b|) ∧
            (comp.severity = .high ↔ 1 / 10 ≤ |c - b| ∧ |c - b| < 2 / 10) ∧
            (comp.severity = .medium ↔ 5 / 100 ≤ |c - b| ∧ |c - b| < 1 / 10) ∧
            (comp.severity = .low ↔ |c - b| < 5 / 100)) ∧
      (∃ comp : MetricComparison,
        comp ∈ (compareMetrics
            { scores := { performance := some (8 / 10) }, coreWebVitals := {} }
            { scores := { performance := some (9 / 10) }, coreWebVitals := {} }).regressions ∧
          comp.metric = "Performance Score" ∧
          comp.diff = -(1 / 10) ∧
          (comp.severity = .high ∨ comp.severity = .medium)) := by
  constructor
  · intro current baseline k c b hc hb
    refine ⟨createScoreComparison (formatScoreKey k) c b, ?_, rfl, rfl, ?_, ?_, ?_⟩
    · refine (mem_compareMetrics_iff current baseline _).mpr ?_
      unfold allComparisons
      rw [List.mem_append]
      exact Or.inl ((mem_compareScores_iff _ _ _).mpr ⟨k, c, b, hc, hb, rfl⟩)
    · simp [createScoreComparison, SCORE_CHANGE_THRESHOLD]
    · simp [createScoreComparison, SCORE_CHANGE_THRESHOLD]
    · exact getScoreSeverity_iff (c - b)
  · refine ⟨createScoreComparison "Performance Score" (8 / 10) (9 / 10), ?_, rfl, ?_, ?_⟩
    · norm_num [compareMetrics, allComparisons, compareScores, compareCoreWebVitals,
        scoreCompareAt, vitalCompareAt, scoreKeys, metricKeys, Scores.get, CoreWebVitals.get, createScoreComparison,
        SCORE_CHANGE_THRESHOLD, formatScoreKey, sortBySeverity, List.filter]
    · norm_num [createScoreComparison]
    · left
      norm_num [createScoreComparison, getScoreSeverity, abs_of_nonpos, abs_of_nonneg]

/-- Witness for C2's hypotheses at performance 0.8 against baseline 0.9. -/
theorem score_comparison_classification_witness :
    ({ scores := { performance := some (8 / 10) }, coreWebVitals := {} } :
        Metrics).scores.get .performance = some (8 / 10) ∧
      ({ scores := { performance := some (9 / 10) }, coreWebVitals := {} } :
        Metrics).scores.get .performance = some (9 / 10) ∧
      ∃ comp : MetricComparison,
        (comp ∈ (compareMetrics
              { scores := { performance := some (8 / 10) }, coreWebVitals := {} }
              { scores := { performance := some (9 / 10) },
                coreWebVitals := {} }).regressions ∨
            comp ∈ (compareMetrics
              { scores := { performance := some (8 / 10) }, coreWebVitals := {} }
              { scores := { performance := some (9 / 10) },
                coreWebVitals := {} }).improvements ∨
            comp ∈ (compareMetrics
              { scores := { performance := some (8 / 10) }, coreWebVitals := {} }
              { scores := { performance := some (9 / 10) },
                coreWebVitals := {} }).unchanged) ∧
          comp.metric = formatScoreKey .performance ∧
          comp.diff = (8 : ℚ) / 10 - 9 / 10 ∧
          (comp.isRegression = true ↔ (8 : ℚ) / 10 - 9 / 10 ≤ -(2 / 100)) ∧
          (comp.isImprovement = true ↔ (8 : ℚ) / 10 - 9 / 10 ≥ 2 / 100) ∧
          (comp.severity = .critical ↔ 2 / 10 ≤ |(8 : ℚ) / 10 - 9 / 10|) ∧
          (comp.severity = .high ↔
            1 / 10 ≤ |(8 : ℚ) / 10 - 9 / 10| ∧ |(8 : ℚ) / 10 - 9 / 10| < 2 / 10) ∧
          (comp.severity = .medium ↔
            5 / 100 ≤ |(8 : ℚ) / 10 - 9 / 10| ∧ |(8 : ℚ) / 10 - 9 / 10| < 1 / 10) ∧
          (comp.severity = .low ↔ |(8 : ℚ) / 10 - 9 / 10| < 5 / 100) :=
  ⟨rfl, rfl,
    score_comparison_classification.1
      { scores := { performance := some (8 / 10) }, coreWebVitals := {} }
      { scores := { performance := some (9 / 10) }, coreWebVitals := {} }
      .performance (8 / 10) (9 / 10) rfl rfl⟩

/-- `formatScoreKey` is injective. -/
theorem formatScoreKey_inj (j k : ScoreKey) : formatScoreKey j = formatScoreKey k ↔ j = k := by
  cases j <;> cases k <;> decide

/-- `formatMetricKey` is injective. -/
theorem formatMetricKey_inj (j k : VitalKey) : formatMetricKey j = formatMetricKey k ↔ j = k := by
  cases j <;> cases k <;> decide

/-- Displayed vital names never collide with displayed score names. -/
theorem formatMetricKey_ne_formatScoreKey (j : VitalKey) (k : ScoreKey) :
    formatMetricKey j ≠ formatScoreKey k := by
  cases j <;> cases k <;> decide

/-- Counting through the three mutually exclusive output filters of
`compareMetrics` equals counting in the underlying list. -/
theorem countP_filter_partition (p : MetricComparison → Bool) (l : List MetricComparison)
    (h : ∀ x ∈ l, ¬(x.isRegression = true ∧ x.isImprovement = true)) :
    ((l.filter (·.isRegression)).countP p + (l.filter (·.isImprovement)).countP p) +
        (l.filter fun c => !c.isRegression && !c.isImprovement).countP p =
      l.countP p := by
  induction l with
  | nil => simp
  | cons a t ih =>
    have ha := h a (List.mem_cons_self a t)
    have ht : ∀ x ∈ t, ¬(x.isRegression = true ∧ x.isImprovement = true) :=
      fun x hx => h x (List.mem_cons_of_mem a hx)
    specialize ih ht
    by_cases hr : a.isRegression = true
    · by_cases hi : a.isImprovement = true
      · exact absurd ⟨hr, hi⟩ ha
      · have hi' : a.isImprovement = false := by simpa using hi
        by_cases hp : p a = true <;>
          simp [List.filter_cons, List.countP_cons, hr, hi', hp] <;> omega
    · have hr' : a.isRegression = false := by simpa using hr
      by_cases hi : a.isImprovement = true
      · by_cases hp : p a = true <;>
          simp [List.filter_cons, List.countP_cons, hr', hi, hp] <;> omega
      · have hi' : a.isImprovement = false := by simpa using hi
        by_cases hp : p a = true <;>
          simp [List.filter_cons, List.countP_cons, hr', hi', hp] <;> omega

/-- The per-key contribution of `scoreCompareAt` to the count of a displayed
score name: 1 exactly for its own key when both sides are present. -/
theorem scoreCompareAt_count (cs bs : Scores) (j k : ScoreKey) :
    ((scoreCompareAt cs bs j).map
        (fun comp => decide (comp.metric = formatScoreKey k))).getD false =
      (decide (j = k) && ((bs.get j).isSome && (cs.get j).isSome)) := by
  unfold scoreCompareAt
  rcases hbj : bs.get j with _ | b <;> rcases hcj : cs.get j with _ | c <;>
    simp [createScoreComparison]
  by_cases hjk : j = k
  · subst hjk; simp
  · have hne : formatScoreKey j ≠ formatScoreKey k :=
      fun hcontra => hjk ((formatScoreKey_inj j k).mp hcontra)
    simp [hjk, hne]

/-- The per-key contribution of `vitalCompareAt` to the count of a displayed
vital name. -/
theorem vitalCompareAt_count (cv bv : CoreWebVitals) (j k : VitalKey) :
    ((vitalCompareAt cv bv j).map
        (fun comp => decide (comp.metric = formatMetricKey k))).getD false =
      (decide (j = k) && ((bv.get j).isSome && (cv.get j).isSome)) := by
  unfold vitalCompareAt
  rcases hbj : bv.get j with _ | b <;> rcases hcj : cv.get j with _ | c <;>
    simp [createMetricComparison]
  by_cases hjk : j = k
  · subst hjk; simp
  · have hne : formatMetricKey j ≠ formatMetricKey k :=
      fun hcontra => hjk ((formatMetricKey_inj j k).mp hcontra)
    simp [hjk, hne]

/-- Count of a displayed score name in `compareScores`: 1 iff the key is
present on both sides, else 0. -/
theorem countP_compareScores (cs bs : Scores) (k : ScoreKey) :
    (compareScores cs bs).countP (fun comp => decide (comp.metric = formatScoreKey k)) =
      if (cs.get k).isSome ∧ (bs.get k).isSome then 1 else 0 := by
  unfold compareScores
  rw [List.countP_filterMap]
  rw [List.countP_congr (fun j _ => by rw [scoreCompareAt_count cs bs j k])]
  cases k with
  | performance =>
      simp only [scoreKeys, List.countP_cons, List.countP_nil, Scores.get]
      rcases Bool.eq_false_or_eq_true bs.performance.isSome with hb | hb <;>
        rcases Bool.eq_false_or_eq_true cs.performance.isSome with hc | hc <;> simp [hb, hc]
  | accessibility =>
      simp only [scoreKeys, List.countP_cons, List.countP_nil, Scores.get]
      rcases Bool.eq_false_or_eq_true bs.accessibility.isSome with hb | hb <;>
        rcases Bool.eq_false_or_eq_true cs.accessibility.isSome with hc | hc <;> simp [hb, hc]
  | bestPractices =>
      simp only [scoreKeys, List.countP_cons, List.countP_nil, Scores.get]
      rcases Bool.eq_false_or_eq_true bs.bestPractices.isSome with hb | hb <;>
        rcases Bool.eq_false_or_eq_true cs.bestPractices.isSome with hc | hc <;> simp [hb, hc]
  | seo =>
      simp only [scoreKeys, List.countP_cons, List.countP_nil, Scores.get]
      rcases Bool.eq_false_or_eq_true bs.seo.isSome with hb | hb <;>
        rcases Bool.eq_false_or_eq_true cs.seo.isSome with hc | hc <;> simp [hb, hc]

/-- Count of a displayed vital name in `compareCoreWebVitals`: 1 iff the key
is present on both sides, else 0. -/
theorem countP_compareCoreWebVitals (cv bv : CoreWebVitals) (k : VitalKey) :
    (compareCoreWebVitals cv bv).countP
        (fun comp => decide (comp.metric = formatMetricKey k)) =
      if (cv.get k).isSome ∧ (bv.get k).isSome then 1 else 0 := by
  unfold compareCoreWebVitals
  rw [List.countP_filterMap]
  rw [List.countP_congr (fun j _ => by rw [vitalCompareAt_count cv bv j k])]
  cases k with
  | fcp =>
      simp only [metricKeys, List.countP_cons, List.countP_nil, CoreWebVitals.get]
      rcases Bool.eq_false_or_eq_true bv.fcp.isSome with hb | hb <;>
        rcases Bool.eq_false_or_eq_true cv.fcp.isSome with hc | hc <;> simp [hb, hc]
  | lcp =>
      simp only [metricKeys, List.countP_cons, List.countP_nil, CoreWebVitals.get]
      rcases Bool.eq_false_or_eq_true bv.lcp.isSome with hb | hb <;>
        rcases Bool.eq_false_or_eq_true cv.lcp.isSome with hc | hc <;> simp [hb, hc]
  | tbt =>
      simp only [metricKeys, List.countP_cons, List.countP_nil, CoreWebVitals.get]
      rcases Bool.eq_false_or_eq_true bv.tbt.isSome with hb | hb <;>
        rcases Bool.eq_false_or_eq_true cv.tbt.isSome with hc | hc <;> simp [hb, hc]
  | cls =>
      simp only [metricKeys, List.countP_cons, List.countP_nil, CoreWebVitals.get]
      rcases Bool.eq_false_or_eq_true bv.cls.isSome with hb | hb <;>
        rcases Bool.eq_false_or_eq_true cv.cls.isSome with hc | hc <;> simp [hb, hc]
  | speedIndex =>
      simp only [metricKeys, List.countP_cons, List.countP_nil, CoreWebVitals.get]
      rcases Bool.eq_false_or_eq_true bv.speedIndex.isSome with hb | hb <;>
        rcases Bool.eq_false_or_eq_true cv.speedIndex.isSome with hc | hc <;> simp [hb, hc]
  | tti =>
      simp only [metricKeys, List.countP_cons, List.countP_nil, CoreWebVitals.get]
      rcases Bool.eq_false_or_eq_true bv.tti.isSome with hb | hb <;>
        rcases Bool.eq_false_or_eq_true cv.tti.isSome with hc | hc <;> simp [hb, hc]

/-- `compareCoreWebVitals` never emits a displayed score name. -/
theorem countP_compareCoreWebVitals_scoreName (cv bv : CoreWebVitals) (k : ScoreKey) :
    (compareCoreWebVitals cv bv).countP
        (fun comp => decide (comp.metric = formatScoreKey k)) = 0 := by
  rw [List.countP_eq_zero]
  intro a ha
  rw [mem_compareCoreWebVitals_iff] at ha
  obtain ⟨j, c, b, -, -, rfl⟩ := ha
  simp [createMetricComparison, formatMetricKey_ne_formatScoreKey j k]

/-- `compareScores` never emits a displayed vital name. -/
theorem countP_compareScores_vitalName (cs bs : Scores) (k : VitalKey) :
    (compareScores cs bs).countP
        (fun comp => decide (comp.metric = formatMetricKey k)) = 0 := by
  rw [List.countP_eq_zero]
  intro a ha
  rw [mem_compareScores_iff] at ha
  obtain ⟨j, c, b, -, -, rfl⟩ := ha
  have := formatMetricKey_ne_formatScoreKey k j
  simp [createScoreComparison]
  exact fun hcontra => this hcontra.symm

/-- C4: a metric key contributes exactly one comparison across the three
output lists of `compareMetrics` iff its value is present in both snapshots;
a key present on only one side (or neither) contributes none — it is never
coerced to a default. -/
theorem metric_in_output_iff_present_both (current baseline : Metrics) :
    (∀ k : ScoreKey,
        ((compareMetrics current baseline).regressions.countP
              (fun comp => decide (comp.metric = formatScoreKey k)) +
            (compareMetrics current baseline).improvements.countP
              (fun comp => decide (comp.metric = formatScoreKey k))) +
          (compareMetrics current baseline).unchanged.countP
            (fun comp => decide (comp.metric = formatScoreKey k)) =
          if (current.scores.get k).isSome ∧ (baseline.scores.get k).isSome then 1
          else 0) ∧
      (∀ k : VitalKey,
        ((compareMetrics current baseline).regressions.countP
              (fun comp => decide (comp.metric = formatMetricKey k)) +
            (compareMetrics current baseline).improvements.countP
              (fun comp => decide (comp.metric = formatMetricKey k))) +
          (compareMetrics current baseline).unchanged.countP
            (fun comp => decide (comp.metric = formatMetricKey k)) =
          if (current.coreWebVitals.get k).isSome ∧ (baseline.coreWebVitals.get k).isSome
          then 1 else 0) := by
  have hcount : ∀ p : MetricComparison → Bool,
      ((compareMetrics current baseline).regressions.countP p +
          (compareMetrics current baseline).improvements.countP p) +
        (compareMetrics current baseline).unchanged.countP p =
        (allComparisons current baseline).countP p := by
    intro p
    show (((allComparisons current baseline).filter (·.isRegression)).insertionSort
            severityLe).countP p +
        (((allComparisons current baseline).filter
            (·.isImprovement)).insertionSort severityLe).countP p +
        ((allComparisons current baseline).filter
          (fun c => !c.isRegression && !c.isImprovement)).countP p =
        (allComparisons current baseline).countP p
    rw [(List.perm_insertionSort severityLe _).countP_eq p,
      (List.perm_insertionSort severityLe _).countP_eq p]
    exact countP_filter_partition p _ (allComparisons_not_both current baseline)
  constructor <;> intro k
  · rw [hcount]
    unfold allComparisons
    rw [List.countP_append, countP_compareScores, countP_compareCoreWebVitals_scoreName]
    simp
  · rw [hcount]
    unfold allComparisons
    rw [List.countP_append, countP_compareScores_vitalName, countP_compareCoreWebVitals]
    simp

/-- A rational has equal floor and ceiling exactly when it is an integer
(its floor cast back equals it). -/
theorem floor_eq_ceil_iff (r : ℚ) : ⌊r⌋ = ⌈r⌉ ↔ ((⌊r⌋ : ℚ) = r) := by
  constructor
  · intro h
    have h1 : (⌊r⌋ : ℚ) ≤ r := Int.floor_le r
    have h2 : r ≤ ((⌈r⌉ : ℤ) : ℚ) := Int.le_ceil r
    rw [← h] at h2
    linarith
  · intro h
    have hc : ⌈r⌉ = ⌊r⌋ := by
      conv_lhs => rw [← h]
      exact Int.ceil_intCast _
    exact hc.symm

/-- `getPercentile` implements exactly the spec's linear-interpolation
percentile: the code's `lowerIndex === upperIndex` test coincides with the
spec's "rank is integral" test, and the code's `rank - lowerIndex` weight is
the fractional part. -/
theorem getPercentile_eq_spec (values : List ℚ) (q : ℚ) :
    getPercentile values q = specLinearPercentile values q := by
  simp only [getPercentile, specLinearPercentile]
  by_cases h0 : values.length = 0
  · simp [h0]
  · simp only [h0, if_false]
    by_cases h1 : (values.insertionSort (· ≤ ·)).length = 1
    · simp [h1]
    · simp only [h1, if_false]
      rw [if_congr (floor_eq_ceil_iff _) rfl (by rw [Int.self_sub_floor])]

/-- The success case of `buildPercentileBaselineMetrics`, with the per-key
percentile values spelled out. -/
theorem buildPercentileBaselineMetrics_ok (series : List Metrics) (p : ℚ)
    (hne : ¬series.length = 0) (hp : ¬(p ≤ 0 ∨ 100 < p)) :
    buildPercentileBaselineMetrics series p =
      .ok
        { scores :=
            { performance := getPercentile (scoreSeriesValues series .performance) p
              accessibility := getPercentile (scoreSeriesValues series .accessibility) p
              bestPractices := getPercentile (scoreSeriesValues series .bestPractices) p
              seo := getPercentile (scoreSeriesValues series .seo) p }
          coreWebVitals :=
            { fcp := getPercentile (vitalSeriesValues series .fcp) (100 - p)
              lcp := getPercentile (vitalSeriesValues series .lcp) (100 - p)
              tbt := getPercentile (vitalSeriesValues series .tbt) (100 - p)
              cls := getPercentile (vitalSeriesValues series .cls) (100 - p)
              speedIndex := getPercentile (vitalSeriesValues series .speedIndex) (100 - p)
              tti := getPercentile (vitalSeriesValues series .tti) (100 - p) }
          opportunities := [] } := by
  unfold buildPercentileBaselineMetrics
  rw [if_neg hne, if_neg hp]

/-- C9 counterexample: on the empty series with percentile 200 — outside
(0,100] — the code reports EmptySeries, not InvalidPercentile as the claim's
universally quantified first clause demands. -/
theorem percentile_validation_counterexample :
    buildPercentileBaselineMetrics [] 200 = .error .emptySeries ∧
      ¬buildPercentileBaselineMetrics [] 200 = .error .invalidPercentile := by
  constructor
  · rfl
  · intro h
    exact absurd (Except.error.inj h) (by decide)

/-- C9 (amended): the empty-series check takes precedence, so an empty series
always fails with EmptySeries; a non-empty series fails with InvalidPercentile
exactly when the percentile is outside (0,100], and succeeds otherwise. -/
theorem buildPercentileBaseline_error_contract (series : List Metrics) (p : ℚ) :
    (series = [] → buildPercentileBaselineMetrics series p = .error .emptySeries) ∧
      (series ≠ [] → (p ≤ 0 ∨ 100 < p) →
        buildPercentileBaselineMetrics series p = .error .invalidPercentile) ∧
      (series ≠ [] → 0 < p → p ≤ 100 →
        ∃ m : Metrics, buildPercentileBaselineMetrics series p = .ok m) := by
  refine ⟨?_, ?_, ?_⟩
  · rintro rfl
    rfl
  · intro hne hout
    unfold buildPercentileBaselineMetrics
    rw [if_neg (by simpa [List.length_eq_zero] using hne), if_pos hout]
  · intro hne h0 h100
    rw [buildPercentileBaselineMetrics_ok series p
      (by simpa [List.length_eq_zero] using hne)
      (by push_neg; exact ⟨h0, h100⟩)]
    exact ⟨_, rfl⟩

/-- Witness for C9's three clauses at concrete inputs. -/
theorem buildPercentileBaseline_error_contract_witness :
    (([] : List Metrics) = [] ∧
        buildPercentileBaselineMetrics [] 200 = .error .emptySeries) ∧
      (([{ scores := {}, coreWebVitals := {} }] : List Metrics) ≠ [] ∧
        ((200 : ℚ) ≤ 0 ∨ (100 : ℚ) < 200) ∧
        buildPercentileBaselineMetrics [{ scores := {}, coreWebVitals := {} }] 200 =
          .error .invalidPercentile) ∧
      (([{ scores := {}, coreWebVitals := {} }] : List Metrics) ≠ [] ∧
        (0 : ℚ) < 50 ∧ (50 : ℚ) ≤ 100 ∧
        ∃ m : Metrics,
          buildPercentileBaselineMetrics [{ scores := {}, coreWebVitals := {} }] 50 = .ok m) :=
  ⟨⟨rfl, (buildPercentileBaseline_error_contract [] 200).1 rfl⟩,
    ⟨by simp, by norm_num,
      (buildPercentileBaseline_error_contract [{ scores := {}, coreWebVitals := {} }] 200).2.1
        (by simp) (by norm_num)⟩,
    ⟨by simp, by norm_num, by norm_num,
      (buildPercentileBaseline_error_contract [{ scores := {}, coreWebVitals := {} }] 50).2.2
        (by simp) (by norm_num) (by norm_num)⟩⟩

/-- C5: for every non-empty series and percentile in (0,100],
`buildPercentileBaselineMetrics` computes, per key independently over the
present values, the spec's linear-interpolated percentile — directly for score
keys and complementarily (100 − p) for Core-Web-Vital keys; in particular the
p75 baseline over the lcp series {1000, 1400, 1200, 1600} yields lcp = 1150. -/
theorem percentile_baseline_direction_aware :
    (∀ (series : List Metrics) (p : ℚ), series ≠ [] → 0 < p → p ≤ 100 →
        ∃ m : Metrics,
          buildPercentileBaselineMetrics series p = .ok m ∧
            (∀ k : ScoreKey,
              m.scores.get k = specLinearPercentile (scoreSeriesValues series k) p) ∧
            (∀ k : VitalKey,
              m.coreWebVitals.get k =
                specLinearPercentile (vitalSeriesValues series k) (100 - p))) ∧
      (∃ m : Metrics,
        buildPercentileBaselineMetrics
            [{ scores := {}, coreWebVitals := { lcp := some 1000 } },
              { scores := {}, coreWebVitals := { lcp := some 1400 } },
              { scores := {}, coreWebVitals := { lcp := some 1200 } },
              { scores := {}, coreWebVitals := { lcp := some 1600 } }] 75 = .ok m ∧
          m.coreWebVitals.lcp = some 1150) := by
  constructor
  · intro series p hne h0 h100
    refine ⟨_, buildPercentileBaselineMetrics_ok series p
      (by simpa [List.length_eq_zero] using hne) (by push_neg; exact ⟨h0, h100⟩), ?_, ?_⟩
    · intro k
      cases k <;> exact getPercentile_eq_spec _ _
    · intro k
      cases k <;> exact getPercentile_eq_spec _ _
  · refine ⟨_, buildPercentileBaselineMetrics_ok _ 75 (by norm_num) (by norm_num), ?_⟩
    have hgoal : getPercentile [(1000 : ℚ), 1400, 1200, 1600] (100 - 75) = some 1150 := by
      have hc : ⌈(3 : ℚ) / 4⌉ = (1 : ℤ) := by
        rw [Int.ceil_eq_iff]
        norm_num
      simp [getPercentile, List.insertionSort, List.orderedInsert]
      norm_num
      rw [hc]
      norm_num [Int.fract]
    exact hgoal

/-- Witness for C5's hypotheses on a one-snapshot series at p50. -/
theorem percentile_baseline_direction_aware_witness :
    ([{ scores := { performance := some 1 }, coreWebVitals := {} }] : List Metrics) ≠ [] ∧
    (0 : ℚ) < 50 ∧ (50 : ℚ) ≤ 100 ∧
    ∃ m : Metrics,
      buildPercentileBaselineMetrics
          [{ scores := { performance := some 1 }, coreWebVitals := {} }] 50 = .ok m ∧
        (∀ k : ScoreKey,
          m.scores.get k =
            specLinearPercentile
              (scoreSeriesValues
                [{ scores := { performance := some 1 }, coreWebVitals := {} }] k) 50) ∧
        (∀ k : VitalKey,
          m.coreWebVitals.get k =
            specLinearPercentile
              (vitalSeriesValues
                [{ scores := { performance := some 1 }, coreWebVitals := {} }] k)
              (100 - 50)) :=
  ⟨by simp, by norm_num, by norm_num,
    percentile_baseline_direction_aware.1
      [{ scores := { performance := some 1 }, coreWebVitals := {} }] 50
      (by simp) (by norm_num) (by norm_num)⟩

/-- `getD` at an in-range index is the list element. -/
theorem getD_of_lt (l : List ℚ) (i : ℕ) (hi : i < l.length) : l.getD i 0 = l[i] := by
  rw [List.getD_eq_getElem?_getD, List.getElem?_eq_getElem hi, Option.getD_some]

/-- Every value produced by `getPercentile` is bracketed by members of the
input list: interpolation between order statistics never extrapolates. -/
theorem getPercentile_mem_bounds (values : List ℚ) (q v : ℚ)
    (h : getPercentile values q = some v) :
    (∃ lo ∈ values, lo ≤ v) ∧ (∃ hi ∈ values, v ≤ hi) := by
  simp only [getPercentile] at h
  by_cases h0 : values.length = 0
  · rw [if_pos h0] at h
    exact absurd h (by simp)
  rw [if_neg h0] at h
  have hlen : (values.insertionSort (· ≤ ·)).length = values.length :=
    List.length_insertionSort _ _
  have hmem : ∀ x ∈ values.insertionSort (· ≤ ·), x ∈ values := fun x hx =>
    (List.mem_insertionSort (· ≤ ·)).mp hx
  have hpair : (values.insertionSort (· ≤ ·)).Sorted (· ≤ ·) :=
    List.sorted_insertionSort (· ≤ ·) values
  by_cases h1 : (values.insertionSort (· ≤ ·)).length = 1
  · rw [if_pos h1] at h
    have hv : v ∈ values.insertionSort (· ≤ ·) := by
      cases hs : values.insertionSort (· ≤ ·) with
      | nil => rw [hs] at h; simp at h
      | cons a t =>
          rw [hs] at h
          simp only [List.head?_cons, Option.some.injEq] at h
          exact List.mem_cons.mpr (Or.inl h.symm)
    exact ⟨⟨v, hmem v hv, le_refl v⟩, ⟨v, hmem v hv, le_refl v⟩⟩
  rw [if_neg h1] at h
  have hne0 : (values.insertionSort (· ≤ ·)).length ≠ 0 := by rw [hlen]; exact h0
  have hn2 : 2 ≤ (values.insertionSort (· ≤ ·)).length := by omega
  set sorted := values.insertionSort (· ≤ ·) with hsorted
  set bounded := max 0 (min 100 q) with hbounded
  set rank := bounded / 100 * ((sorted.length : ℚ) - 1) with hrank
  have hb0 : 0 ≤ bounded := le_max_left 0 _
  have hb100 : bounded ≤ 100 := max_le (by norm_num) (min_le_left _ _)
  have hcast : (2 : ℚ) ≤ (sorted.length : ℚ) := by exact_mod_cast hn2
  have hrank0 : 0 ≤ rank := by
    apply mul_nonneg (div_nonneg hb0 (by norm_num))
    linarith
  have hrankle : rank ≤ (sorted.length : ℚ) - 1 := by
    have hd1 : bounded / 100 ≤ 1 := by
      rw [div_le_one (by norm_num)]
      exact hb100
    calc rank = bounded / 100 * ((sorted.length : ℚ) - 1) := rfl
      _ ≤ 1 * ((sorted.length : ℚ) - 1) :=
          mul_le_mul_of_nonneg_right hd1 (by linarith)
      _ = (sorted.length : ℚ) - 1 := one_mul _
  have hfloor0 : 0 ≤ ⌊rank⌋ := Int.floor_nonneg.mpr hrank0
  have hceil0 : 0 ≤ ⌈rank⌉ := le_trans hfloor0 (Int.floor_le_ceil rank)
  have hceil_le : ⌈rank⌉ ≤ (sorted.length : ℤ) - 1 := by
    rw [Int.ceil_le]
    push_cast
    exact hrankle
  have hflc : ⌊rank⌋ ≤ ⌈rank⌉ := Int.floor_le_ceil rank
  have hiLo : ⌊rank⌋.toNat < sorted.length := by omega
  have hiHi : ⌈rank⌉.toNat < sorted.length := by omega
  have hgetLo := getD_of_lt sorted ⌊rank⌋.toNat hiLo
  have hgetHi := getD_of_lt sorted ⌈rank⌉.toNat hiHi
  have hmemLo : sorted[⌊rank⌋.toNat] ∈ values := hmem _ (List.getElem_mem hiLo)
  have hmemHi : sorted[⌈rank⌉.toNat] ∈ values := hmem _ (List.getElem_mem hiHi)
  have hmono : sorted[⌊rank⌋.toNat] ≤ sorted[⌈rank⌉.toNat] := by
    have hfin : (⟨⌊rank⌋.toNat, hiLo⟩ : Fin sorted.length) ≤ ⟨⌈rank⌉.toNat, hiHi⟩ :=
      Fin.mk_le_mk.mpr (by omega)
    have := hpair.rel_get_of_le hfin
    simpa using this
  by_cases heq : ⌊rank⌋ = ⌈rank⌉
  · rw [if_pos heq, hgetLo] at h
    obtain rfl : sorted[⌊rank⌋.toNat] = v := Option.some.inj h
    exact ⟨⟨_, hmemLo, le_refl _⟩, ⟨_, hmemLo, le_refl _⟩⟩
  · rw [if_neg heq, hgetLo, hgetHi] at h
    obtain rfl :
        sorted[⌊rank⌋.toNat] +
          (sorted[⌈rank⌉.toNat] - sorted[⌊rank⌋.toNat]) * (rank - (⌊rank⌋ : ℚ)) = v :=
      Option.some.inj h
    have hw0 : 0 ≤ rank - (⌊rank⌋ : ℚ) := by
      have := Int.floor_le rank
      linarith
    have hw1 : rank - (⌊rank⌋ : ℚ) ≤ 1 := by
      have := Int.lt_floor_add_one rank
      push_cast at this
      linarith
    constructor
    · exact ⟨sorted[⌊rank⌋.toNat], hmemLo, by nlinarith⟩
    · exact ⟨sorted[⌈rank⌉.toNat], hmemHi, by nlinarith⟩

/-- C10: every score and vital value in a successfully synthesized baseline is
bracketed below and above by observed values of that key across the input
series — the synthesizer interpolates between observed values and never
extrapolates beyond them. -/
theorem baseline_values_within_observed_range (series : List Metrics) (p : ℚ) (m : Metrics)
    (hok : buildPercentileBaselineMetrics series p = .ok m) :
    (∀ (k : ScoreKey) (v : ℚ), m.scores.get k = some v →
        (∃ lo ∈ scoreSeriesValues series k, lo ≤ v) ∧
          (∃ hi ∈ scoreSeriesValues series k, v ≤ hi)) ∧
      (∀ (k : VitalKey) (v : ℚ), m.coreWebVitals.get k = some v →
        (∃ lo ∈ vitalSeriesValues series k, lo ≤ v) ∧
          (∃ hi ∈ vitalSeriesValues series k, v ≤ hi)) := by
  unfold buildPercentileBaselineMetrics at hok
  by_cases h0 : series.length = 0
  · rw [if_pos h0] at hok
    exact absurd hok (by simp)
  rw [if_neg h0] at hok
  by_cases hp : p ≤ 0 ∨ 100 < p
  · rw [if_pos hp] at hok
    exact absurd hok (by simp)
  rw [if_neg hp] at hok
  obtain rfl := Except.ok.inj hok
  constructor
  · intro k v hv
    cases k <;> exact getPercentile_mem_bounds _ _ _ hv
  · intro k v hv
    cases k <;> exact getPercentile_mem_bounds _ _ _ hv

/-- Witness for C10 on a one-snapshot series at p50. -/
theorem baseline_values_within_observed_range_witness :
    ∃ m : Metrics,
      buildPercentileBaselineMetrics
          [{ scores := { performance := some 1 }, coreWebVitals := {} }] 50 = .ok m ∧
        ((∀ (k : ScoreKey) (v : ℚ), m.scores.get k = some v →
            (∃ lo ∈ scoreSeriesValues
                [{ scores := { performance := some 1 }, coreWebVitals := {} }] k, lo ≤ v) ∧
              (∃ hi ∈ scoreSeriesValues
                [{ scores := { performance := some 1 }, coreWebVitals := {} }] k, v ≤ hi)) ∧
          (∀ (k : VitalKey) (v : ℚ), m.coreWebVitals.get k = some v →
            (∃ lo ∈ vitalSeriesValues
                [{ scores := { performance := some 1 }, coreWebVitals := {} }] k, lo ≤ v) ∧
              (∃ hi ∈ vitalSeriesValues
                [{ scores := { performance := some 1 }, coreWebVitals := {} }] k, v ≤ hi))) :=
  ⟨_, buildPercentileBaselineMetrics_ok _ 50 (by norm_num) (by norm_num),
    baseline_values_within_observed_range _ 50 _
      (buildPercentileBaselineMetrics_ok _ 50 (by norm_num) (by norm_num))⟩

/-- The strict version of `reportRecencyLe`: strictly newer timestamp, or a
tie broken by strictly descending filename. -/
def reportRecencyLt (a b : ReportFile) : Prop :=
  parseTime b.report.fetchTime < parseTime a.report.fetchTime ∨
    (parseTime a.report.fetchTime = parseTime b.report.fetchTime ∧ b.file < a.file)

instance : IsTotal ReportFile reportRecencyLe :=
  ⟨fun a b => by
    unfold reportRecencyLe
    rcases lt_trichotomy (parseTime a.report.fetchTime) (parseTime b.report.fetchTime)
      with h | h | h
    · exact Or.inr (Or.inl h)
    · rcases le_total b.file a.file with hf | hf
      · exact Or.inl (Or.inr ⟨h, hf⟩)
      · exact Or.inr (Or.inr ⟨h.symm, hf⟩)
    · exact Or.inl (Or.inl h)⟩

instance : IsTrans ReportFile reportRecencyLe :=
  ⟨fun a b c hab hbc => by
    unfold reportRecencyLe at *
    rcases hab with h1 | ⟨h1, f1⟩ <;> rcases hbc with h2 | ⟨h2, f2⟩
    · exact Or.inl (by omega)
    · exact Or.inl (by omega)
    · exact Or.inl (by omega)
    · exact Or.inr ⟨by omega, le_trans f2 f1⟩⟩

/-- C7: the loader's recency sort returns a permutation of the parsed entries
that is ordered by parsed timestamp descending with filename-descending
tie-breaks; with distinct filenames the order is strict, hence fully
deterministic on identical inputs. -/
theorem loadReports_deterministic_order (entries : List ReportFile) :
    List.Perm (sortEntriesByRecency entries) entries ∧
      sortReportsByRecency entries = (sortEntriesByRecency entries).map (·.report) ∧
      (sortEntriesByRecency entries).Pairwise reportRecencyLe ∧
      ((entries.map (·.file)).Nodup →
        (sortEntriesByRecency entries).Pairwise reportRecencyLt) := by
  refine ⟨List.perm_insertionSort _ _, rfl, List.sorted_insertionSort _ _, ?_⟩
  intro hnd
  have hweak : (sortEntriesByRecency entries).Pairwise reportRecencyLe :=
    List.sorted_insertionSort _ _
  have hperm : List.Perm (sortEntriesByRecency entries) entries :=
    List.perm_insertionSort _ _
  have hnd' : ((sortEntriesByRecency entries).map (·.file)).Nodup :=
    ((hperm.map _).nodup_iff).mpr hnd
  have hne : (sortEntriesByRecency entries).Pairwise fun a b => ¬a.file = b.file := by
    rw [List.Nodup, List.pairwise_map] at hnd'
    exact hnd'
  refine (hweak.and hne).imp ?_
  rintro a b ⟨hle, hneq⟩
  unfold reportRecencyLe at hle
  unfold reportRecencyLt
  rcases hle with h | ⟨h, hf⟩
  · exact Or.inl h
  · exact Or.inr ⟨h, lt_of_le_of_ne hf (Ne.symm hneq)⟩

/-- Witness for C7's distinct-filename hypothesis on three concrete entries
(two sharing a timestamp, one with an unparsable timestamp). -/
theorem loadReports_deterministic_order_witness :
    ((([{ file := "lhr-a.json", report := { fetchTime := some 5 } },
          { file := "lhr-b.json", report := { fetchTime := none } },
          { file := "lhr-c.json", report := { fetchTime := some 5 } }] :
            List ReportFile).map
        (·.file)).Nodup) ∧
      (sortEntriesByRecency
          [{ file := "lhr-a.json", report := { fetchTime := some 5 } },
            { file := "lhr-b.json", report := { fetchTime := none } },
            { file := "lhr-c.json", report := { fetchTime := some 5 } }]).Pairwise
        reportRecencyLt :=
  ⟨by decide,
    (loadReports_deterministic_order
        [{ file := "lhr-a.json", report := { fetchTime := some 5 } },
          { file := "lhr-b.json", report := { fetchTime := none } },
          { file := "lhr-c.json", report := { fetchTime := some 5 } }]).2.2.2
      (by decide)⟩

/-- Candidate selection for `median` and `p<N>` strategies reduces to: all
same-URL historical reports, falling back to all historical reports when none
match. -/
theorem getBaselineCandidates_median_percentile (current : LHReport)
    (historical : List LHReport) (strategy : String)
    (h : strategy = "median" ∨ isPercentileStrategy strategy = true) :
    getBaselineCandidates current historical strategy =
      (if (historical.filter fun r =>
            normalizeReportUrl r = normalizeReportUrl current) = []
        then historical
        else historical.filter fun r =>
          normalizeReportUrl r = normalizeReportUrl current) := by
  have hiff : ∀ same fallback : List LHReport,
      (if same.length > 0 then same else fallback) =
        (if same = [] then fallback else same) := by
    intro same fallback
    rcases same with _ | ⟨a, t⟩ <;> simp
  unfold getBaselineCandidates
  by_cases h0 : historical.length = 0
  · rw [if_pos h0]
    obtain rfl : historical = [] := List.length_eq_zero.mp h0
    simp
  rw [if_neg h0]
  have hlat : ¬strategy = "latest" := by
    rcases h with rfl | hps
    · decide
    · rintro rfl
      exact absurd hps (by decide)
  rw [if_neg hlat]
  rcases h with rfl | hps
  · rw [if_pos rfl]
    exact hiff _ _
  · have hmed : ¬strategy = "median" := by
      rintro rfl
      exact absurd hps (by decide)
    rw [if_neg hmed, if_pos hps]
    exact hiff _ _

/-- `selectCurrentAndBaselineReports` on a non-empty list always succeeds with
the head as current and `getBaselineCandidates` over the tail. -/
theorem selectCurrentAndBaselineReports_cons (current : LHReport)
    (historical : List LHReport) (strategy : String) :
    selectCurrentAndBaselineReports (current :: historical) strategy =
      .ok
        { current := current
          baseline := (getBaselineCandidates current historical strategy).head?
          baselineCandidates := getBaselineCandidates current historical strategy } := by
  rw [selectCurrentAndBaselineReports]
  by_cases hone : historical = []
  · subst hone
    rw [if_pos (show ([current] : List LHReport).length = 1 from rfl)]
    rfl
  · rw [if_neg (by simp [hone])]

/-- C8: for strategy `median` or any `p<N>` strategy, the selected pair's
baselineCandidates are all same-URL historical reports, or all historical
reports when none share the URL; concretely, 2 same-URL matches among 3
historical reports yield a 2-element candidate list. -/
theorem median_percentile_baseline_candidates :
    (∀ (current : LHReport) (historical : List LHReport) (strategy : String),
        (strategy = "median" ∨ isPercentileStrategy strategy = true) →
        ∃ pair : ReportPair,
          selectCurrentAndBaselineReports (current :: historical) strategy = .ok pair ∧
            pair.current = current ∧
            pair.baselineCandidates =
              (if (historical.filter fun r =>
                    normalizeReportUrl r = normalizeReportUrl current) = []
                then historical
                else historical.filter fun r =>
                  normalizeReportUrl r = normalizeReportUrl current)) ∧
      (∃ pair : ReportPair,
        selectCurrentAndBaselineReports
            [{ finalUrl := "https://a.com/x" },
              { finalUrl := "https://a.com/x/" },
              { finalUrl := "https://b.com/y" },
              { finalUrl := "https://a.com/x" }] "median" = .ok pair ∧
          pair.baselineCandidates.length = 2) := by
  constructor
  · intro current historical strategy hstrat
    exact ⟨_, selectCurrentAndBaselineReports_cons current historical strategy, rfl,
      getBaselineCandidates_median_percentile current historical strategy hstrat⟩
  · exact ⟨_, rfl, rfl⟩

/-- Witness for C8's strategy hypothesis at a concrete percentile strategy. -/
theorem median_percentile_baseline_candidates_witness :
    ("p75" = "median" ∨ isPercentileStrategy "p75" = true) ∧
    ∃ pair : ReportPair,
      selectCurrentAndBaselineReports
          ({ finalUrl := "https://a.com/x" } ::
            [{ finalUrl := "https://a.com/x/" }, { finalUrl := "https://b.com/y" }])
          "p75" = .ok pair ∧
        pair.current = { finalUrl := "https://a.com/x" } ∧
        pair.baselineCandidates =
          (if ([{ finalUrl := "https://a.com/x/" }, { finalUrl := "https://b.com/y" }].filter
                fun r =>
                  normalizeReportUrl r =
                    normalizeReportUrl { finalUrl := "https://a.com/x" }) = []
            then [{ finalUrl := "https://a.com/x/" }, { finalUrl := "https://b.com/y" }]
            else
              [{ finalUrl := "https://a.com/x/" }, { finalUrl := "https://b.com/y" }].filter
                fun r =>
                  normalizeReportUrl r =
                    normalizeReportUrl { finalUrl := "https://a.com/x" }) :=
  ⟨Or.inr (by decide),
    median_percentile_baseline_candidates.1
      { finalUrl := "https://a.com/x" }
      [{ finalUrl := "https://a.com/x/" }, { finalUrl := "https://b.com/y" }]
      "p75" (Or.inr (by decide))⟩

end LHCI

